import Mathlib

/-!
Shallow embedding of the LLM-Council decision pipeline (Python sources under
`src/`), together with theorems settling the specification claims about it.

Conventions of the embedding:
* Python `str` is Lean `String`; Python floats are embedded as `ℚ` (all the
  arithmetic the claims mention is exact decimal arithmetic on small values);
  Python ints are `ℤ` or `ℕ` as the context dictates.
* Python code that can raise an exception is embedded as an `Option`-returning
  function; `none` models the raised exception.
* Python `dict` built by insertion is embedded as: the list of keys in order of
  first occurrence (`firstKeys`) together with the value computed per key.
* Compiled regular expressions are embedded as an opaque source string plus a
  boolean matching function (`RegexPat`), since the claims never depend on the
  regex language itself.
-/

namespace Council

/-- Python `needle in hay` substring test on strings, via character lists. -/
def strIn (needle hay : String) : Bool :=
  go needle.toList hay.toList
where
  go (n : List Char) : List Char → Bool
    | [] => n.isEmpty
    | c :: t => n.isPrefixOf (c :: t) || go n t

/-- Python `str.lower()` (character-wise, matching Python on ASCII). -/
def pyLower (s : String) : String :=
  ⟨s.data.map Char.toLower⟩

/-- Python `str.strip()`: remove leading and trailing whitespace. -/
def pyStrip (s : String) : String :=
  ⟨((s.data.dropWhile Char.isWhitespace).reverse.dropWhile Char.isWhitespace).reverse⟩

/-- Keys of a Python insertion-ordered dict: the distinct elements of `l`
in order of first occurrence (accumulator = keys seen so far, reversed). -/
def firstKeysAux : List String → List String → List String
  | [], acc => acc.reverse
  | x :: xs, acc => if x ∈ acc then firstKeysAux xs acc else firstKeysAux xs (x :: acc)

/-- Distinct elements of `l` in order of first occurrence. -/
def firstKeys (l : List String) : List String := firstKeysAux l []

theorem mem_firstKeysAux (x : String) :
    ∀ (l acc : List String), x ∈ firstKeysAux l acc ↔ x ∈ l ∨ x ∈ acc := by
  intro l
  induction l with
  | nil => intro acc; simp [firstKeysAux]
  | cons y ys ih =>
    intro acc
    by_cases hy : y ∈ acc
    · simp only [firstKeysAux, if_pos hy, ih, List.mem_cons]
      constructor
      · rintro (h | h)
        · exact Or.inl (Or.inr h)
        · exact Or.inr h
      · rintro ((rfl | h) | h)
        · exact Or.inr hy
        · exact Or.inl h
        · exact Or.inr h
    · simp only [firstKeysAux, if_neg hy, ih, List.mem_cons]
      tauto

theorem mem_firstKeys (x : String) (l : List String) : x ∈ firstKeys l ↔ x ∈ l := by
  simp [firstKeys, mem_firstKeysAux]

/-- A compiled pattern from `re.compile`: the pattern source string
(`.pattern` attribute) plus its matching behaviour `re.search`-as-a-predicate (field `search`). -/
structure RegexPat where
  src : String
  search : String → Bool

/-- Configuration loaded by `SafetyGate._load_config` (src/safety/gate.py). -/
structure SafetyConfig where
  blocked_keywords : List String
  blocked_patterns : List RegexPat
  allowlist_patterns : List RegexPat
  max_query_length : Nat
  min_query_length : Nat

/-- Result of a safety check (src/safety/gate.py, `SafetyResult`). -/
structure SafetyResult where
  passed : Bool
  reason : String
  matched_patterns : List String
deriving Repr

/-- Embedding of `SafetyGate.check` (src/safety/gate.py lines 58-127).
Check order: empty query, min length, max length, blocked keywords
(case-insensitive substring of the stripped query), blocked regex patterns
(all matches collected), allowlist patterns, default accept. -/
def safety_check (cfg : SafetyConfig) (query : String) : SafetyResult :=
  if pyStrip query = "" then
    ⟨false, "Query is empty", []⟩
  else
    let q := pyStrip query
    if q.length < cfg.min_query_length then
      ⟨false, "Query too short (min " ++ toString cfg.min_query_length ++ " chars)", []⟩
    else if q.length > cfg.max_query_length then
      ⟨false, "Query too long (max " ++ toString cfg.max_query_length ++ " chars)", []⟩
    else
      match cfg.blocked_keywords.find? (fun k => strIn (pyLower k) (pyLower q)) with
      | some k => ⟨false, "Blocked keyword detected: \x27" ++ k ++ "\x27", [k]⟩
      | none =>
        let matched := (cfg.blocked_patterns.filter (fun p => p.search q)).map (·.src)
        if matched ≠ [] then
          ⟨false, "Blocked pattern matched", matched⟩
        else if cfg.allowlist_patterns.any (fun p => p.search q) then
          ⟨true, "Allowlisted query", []⟩
        else
          ⟨true, "Query passed all safety checks", []⟩

/-- Risk level enum (src/core/decision.py, `RiskLevel`). -/
inductive RiskLevel where
  | LOW
  | MEDIUM
  | HIGH
  | CRITICAL
deriving DecidableEq, Repr

/-- Response from a single agent (src/core/decision.py, `AgentResponse`). -/
structure AgentResponse where
  agent_id : String
  agent_type : String
  response_text : String
  temperature : ℚ
  generation_time_ms : ℤ
deriving DecidableEq, Repr

/-- Evaluation from a judge (src/core/decision.py, `JudgeEvaluation`).
The `scores` dict is embedded as an association list in insertion order. -/
structure JudgeEvaluation where
  judge_id : String
  judge_type : String
  target_agent_id : String
  scores : List (String × ℚ)
  total_score : ℚ
  reasoning : String
  flagged_issues : List String
deriving DecidableEq, Repr

/-! Section: Selector (`LLMCouncil._select_best`, src/core/council.py lines 386-450)

The Python code groups `total_score`s into a dict keyed by `target_agent_id`.
We embed the dict as `agentKeys` (keys in first-occurrence order) and
`scoresFor`/`avgScore` (the per-key score list and its average, in evaluation
order, which is exactly what the dict's per-key list holds). -/

/-- Keys of the `agent_scores` dict, in order of first occurrence. -/
def agentKeys (evals : List JudgeEvaluation) : List String :=
  firstKeys (evals.map (·.target_agent_id))

/-- The per-agent list of judge total scores, in evaluation order. -/
def scoresFor (evals : List JudgeEvaluation) (aid : String) : List ℚ :=
  (evals.filter (fun e => e.target_agent_id == aid)).map (·.total_score)

/-- Python `sum(scores) / len(scores)` for one agent (0 if the agent was never scored,
which cannot happen for a key of the dict). -/
def avgScore (evals : List JudgeEvaluation) (aid : String) : ℚ :=
  (scoresFor evals aid).sum / (scoresFor evals aid).length

/-- The value `best_score = max(avg_scores.values())`; 0 on an empty dict (Python would
raise there; `select_best` never consults this value in that case). -/
def bestAvg (evals : List JudgeEvaluation) : ℚ :=
  match agentKeys evals with
  | [] => 0
  | k :: ks => (ks.map (avgScore evals)).foldl max (avgScore evals k)

/-- The list `top_agents`: the agents whose average equals the best score exactly,
in dict order. -/
def tiedAgents (evals : List JudgeEvaluation) : List String :=
  (agentKeys evals).filter (fun a => avgScore evals a == bestAvg evals)

/-- The tie-break marker test: `"safety" in aid.lower() or "advocate" in aid.lower()`.
Note the Python code applies it to the agent *id* only, never to the agent type. -/
def hasSafetyMarker (aid : String) : Bool :=
  strIn "safety" (pyLower aid) || strIn "advocate" (pyLower aid)

/-- Embedding of `LLMCouncil._select_best`. Returns the selected response and
the confidence `best_score / 10.0`; the third component of the Python return
value (the human-readable rationale string) is presentational and not part of
any claim, so it is omitted here. `none` models the `ValueError` that
`max(avg_scores.values())` raises when `evaluations` is empty, and the
`IndexError` of the `responses[0]` fallback when `responses` is empty
(`tops.headD k0` is never the default: `tiedAgents` is nonempty whenever
`agentKeys` is). -/
def select_best (responses : List AgentResponse) (evals : List JudgeEvaluation) :
    Option (AgentResponse × ℚ) :=
  match agentKeys evals with
  | [] => none
  | k0 :: _ =>
    let best := bestAvg evals
    let tops := tiedAgents evals
    let best_agent_id :=
      match tops.find? hasSafetyMarker with
      | some a => a
      | none => tops.headD k0
    match responses.find? (fun r => r.agent_id == best_agent_id) with
    | some r => some (r, best / 10)
    | none =>
      match responses with
      | [] => none
      | r :: _ => some (r, best / 10)

/-! Section: Retry (`LLMCouncil._get_judge_feedback` lines 452-471 and the
corrector branch of `LLMCouncil.decide`, src/core/council.py lines 156-172) -/

/-- Embedding of `LLMCouncil._get_judge_feedback`: for every evaluation
targeting the selected response, contribute the flagged issues (joined by
`"; "`), or, when none were flagged, the judge's free-text reasoning when
non-empty; the parts are joined by `" | "`. -/
def get_judge_feedback (evals : List JudgeEvaluation) (selected : AgentResponse) : String :=
  let feedback_parts := evals.filterMap (fun ev =>
    if ev.target_agent_id == selected.agent_id then
      if ev.flagged_issues.isEmpty then
        if ev.reasoning == "" then none
        else some (ev.judge_type ++ " Judge: " ++ ev.reasoning)
      else some (ev.judge_type ++ " Judge: " ++ String.intercalate "; " ev.flagged_issues)
    else none)
  if feedback_parts.isEmpty then "" else String.intercalate " | " feedback_parts

/-- Embedding of the corrector (retry) branch of `LLMCouncil.decide`
(src/core/council.py lines 156-172): returns
`(was_retried, confidence after the branch, retry_feedback)`. -/
def retry_step (confidence confidence_threshold : ℚ) (max_retries : ℤ)
    (evals : List JudgeEvaluation) (selected : AgentResponse) : Bool × ℚ × String :=
  if confidence < confidence_threshold ∧ max_retries > 0 then
    let retry_feedback := get_judge_feedback evals selected
    if retry_feedback == "" then (false, confidence, retry_feedback)
    else (true, min 1 (confidence + 1/10), retry_feedback)
  else (false, confidence, "")

/-! Section: Judge disagreement (`check_judge_disagreement`,
src/judges/evaluators.py lines 279-293)

The Python code builds `agent_scores[agent_id][judge_type] = total_score`:
a per-agent dict keyed by *judge type* (not judge id), so a later evaluation
from a judge with the same type overwrites the earlier score. -/

/-- The evaluations targeting one agent. -/
def evalsFor (evals : List JudgeEvaluation) (aid : String) : List JudgeEvaluation :=
  evals.filter (fun e => e.target_agent_id == aid)

/-- Keys of the per-agent `judge_type → total_score` dict, in first-occurrence
order. -/
def judgeTypesFor (evals : List JudgeEvaluation) (aid : String) : List String :=
  firstKeys ((evalsFor evals aid).map (·.judge_type))

/-- The per-agent dict values in key order: for each judge type the total
score of the *last* evaluation with that type (dict overwrite semantics);
the default 0 is never used for a key of the dict. -/
def judgeTotalsFor (evals : List JudgeEvaluation) (aid : String) : List ℚ :=
  (judgeTypesFor evals aid).map (fun t =>
    (((evalsFor evals aid).filter (fun e => e.judge_type == t)).map (·.total_score)).getLastD 0)

/-- Python `max(l)` of a nonempty list (default 0 never used on dict values). -/
def listMax : List ℚ → ℚ
  | [] => 0
  | x :: xs => xs.foldl max x

/-- Python `min(l)` of a nonempty list (default 0 never used on dict values). -/
def listMin : List ℚ → ℚ
  | [] => 0
  | x :: xs => xs.foldl min x

/-- Embedding of `check_judge_disagreement(evaluations, threshold=3.0)`. -/
def check_judge_disagreement (evals : List JudgeEvaluation) (threshold : ℚ := 3) : Bool :=
  (agentKeys evals).any (fun aid =>
    let scores := judgeTotalsFor evals aid
    decide (2 ≤ scores.length) && decide (listMax scores - listMin scores > threshold))

/-! Section: Risk assessment (`LLMCouncil._assess_risk`, src/core/council.py
lines 473-512) -/

/-- The risk strings collected before classification: for every Safety-type
evaluation, each dimension scoring below 5 contributes
`"Low <dim> score: <score>"`; then every flagged issue across all evaluations
is appended if not already present. -/
def collectRisks (evals : List JudgeEvaluation) : List String :=
  let safety_concerns := evals.flatMap (fun ev =>
    if ev.judge_type == "Safety" then
      ev.scores.filterMap (fun ds =>
        if ds.2 < 5 then some ("Low " ++ ds.1 ++ " score: " ++ toString ds.2) else none)
    else [])
  (evals.flatMap (·.flagged_issues)).foldl
    (fun acc issue => if issue ∈ acc then acc else acc ++ [issue]) safety_concerns

/-- The harm/danger marker test of the CRITICAL branch:
`"harmful" in r.lower() or "dangerous" in r.lower()`. -/
def riskMarker (r : String) : Bool :=
  strIn "harmful" (pyLower r) || strIn "dangerous" (pyLower r)

/-- Embedding of `LLMCouncil._assess_risk`. -/
def assess_risk (evals : List JudgeEvaluation) (confidence : ℚ)
    (judge_disagreement : Bool) : RiskLevel × List String :=
  let risks := collectRisks evals
  if risks.any riskMarker then (RiskLevel.CRITICAL, risks)
  else if 4 ≤ risks.length ∨ confidence < 2/5 then (RiskLevel.HIGH, risks)
  else if 2 ≤ risks.length ∨ confidence < 3/5 ∨ judge_disagreement then
    (RiskLevel.MEDIUM, risks)
  else (RiskLevel.LOW, risks)

/-! Section: Citation extraction (`LLMCouncil._extract_citations`,
src/core/council.py lines 514-545)

The regex phase (lines 522-535) produces `citations = urls ++ matches of the
three source patterns`, a list of strings extracted from the input text; the
regex engine itself is not embedded, so the dedup/truncation phase is stated
over an arbitrary candidate list, which covers every input text. -/

/-- The `seen`-set dedup loop of `_extract_citations` (lines 537-543):
keep a candidate iff its lowercasing has not been seen before. -/
def dedupCitations : List String → List String → List String
  | [], _ => []
  | c :: cs, seen =>
    if pyLower c ∈ seen then dedupCitations cs seen
    else c :: dedupCitations cs (pyLower c :: seen)

/-- Embedding of `_extract_citations` applied to the candidate list produced
by the regex phase: case-insensitive dedup keeping first occurrences, then
`unique[:10]`. -/
def extract_citations (candidates : List String) : List String :=
  (dedupCitations candidates []).take 10

/-! Section: Staged execution (`LLMCouncil.decide_generator`, src/core/council.py
lines 236-384)

The generator yields `("start", _)`, then on gate rejection `("blocked", _)`
and stops; otherwise it yields `("agents", _)` once per iteration of the
polling loop (`polls` many times, resolved by the scheduler), then a final
`("agents", _)`, then `("judges", _)`, then `("final", _)`.  Only the stage
labels are modelled; `polls : ℕ` is the number of polling-loop iterations. -/

def decide_generator_stages (cfg : SafetyConfig) (query : String) (polls : ℕ) :
    List String :=
  "start" ::
    (if (safety_check cfg query).passed then
      (List.replicate polls "agents") ++ ["agents", "judges", "final"]
    else ["blocked"])

/-! Section: Audit logging (`AuditLogger.log`, src/audit/logger.py lines 34-78, and
`Decision.to_dict` / `BlockedDecision.to_dict`, src/core/decision.py) -/

/-- A JSON value, the codomain of the embedded `to_dict`/log-entry builders. -/
inductive JVal where
  | str (s : String)
  | num (q : ℚ)
  | bool (b : Bool)
  | null
  | arr (l : List JVal)
  | obj (l : List (String × JVal))

/-- The terminal artifact of a non-blocked run (src/core/decision.py,
`Decision`); `timestamp` is embedded as its ISO string. -/
structure Decision where
  decision_id : String
  timestamp : String
  query : String
  agent_responses : List AgentResponse
  judge_evaluations : List JudgeEvaluation
  selected_response : AgentResponse
  refined_response : Option AgentResponse
  confidence_score : ℚ
  risk_level : RiskLevel
  identified_risks : List String
  citations : List String
  selection_reasoning : String
  retry_feedback : String
  processing_time_ms : ℤ
  safety_passed : Bool
  judge_disagreement : Bool
  was_refined : Bool
  was_retried : Bool

/-- The terminal artifact of a blocked run (src/core/decision.py,
`BlockedDecision`). -/
structure BlockedDecision where
  decision_id : String
  timestamp : String
  query : String
  safety_passed : Bool
  block_reason : String
  matched_patterns : List String

/-- Embedding of `RiskLevel.value` (the enum's string value). -/
def RiskLevel.value : RiskLevel → String
  | .LOW => "LOW"
  | .MEDIUM => "MEDIUM"
  | .HIGH => "HIGH"
  | .CRITICAL => "CRITICAL"

/-- Embedding of `asdict` of an `AgentResponse`. -/
def AgentResponse.to_dict (r : AgentResponse) : JVal :=
  .obj [("agent_id", .str r.agent_id), ("agent_type", .str r.agent_type),
    ("response_text", .str r.response_text), ("temperature", .num r.temperature),
    ("generation_time_ms", .num r.generation_time_ms)]

/-- Embedding of `asdict` of a `JudgeEvaluation`. -/
def JudgeEvaluation.to_dict (e : JudgeEvaluation) : JVal :=
  .obj [("judge_id", .str e.judge_id), ("judge_type", .str e.judge_type),
    ("target_agent_id", .str e.target_agent_id),
    ("scores", .obj (e.scores.map (fun ds => (ds.1, .num ds.2)))),
    ("total_score", .num e.total_score), ("reasoning", .str e.reasoning),
    ("flagged_issues", .arr (e.flagged_issues.map .str))]

/-- Embedding of `Decision.get_agent_scores` (src/core/decision.py lines 92-109): average
total score per agent, keyed in first-occurrence order. -/
def Decision.get_agent_scores (d : Decision) : List (String × ℚ) :=
  (agentKeys d.judge_evaluations).map
    (fun aid => (aid, avgScore d.judge_evaluations aid))

/-- Embedding of `Decision.to_dict` (src/core/decision.py lines 131-154).
Note the `"query"` entry: the dict contains the raw query string. -/
def Decision.to_dict (d : Decision) : JVal :=
  .obj [("decision_id", .str d.decision_id), ("timestamp", .str d.timestamp),
    ("query", .str d.query),
    ("agent_responses", .arr (d.agent_responses.map AgentResponse.to_dict)),
    ("judge_evaluations", .arr (d.judge_evaluations.map JudgeEvaluation.to_dict)),
    ("selected_response", d.selected_response.to_dict),
    ("refined_response",
      match d.refined_response with
      | some r => r.to_dict
      | none => .null),
    ("confidence_score", .num d.confidence_score),
    ("risk_level", .str d.risk_level.value),
    ("identified_risks", .arr (d.identified_risks.map .str)),
    ("citations", .arr (d.citations.map .str)),
    ("selection_reasoning", .str d.selection_reasoning),
    ("retry_feedback", .str d.retry_feedback),
    ("processing_time_ms", .num d.processing_time_ms),
    ("safety_passed", .bool d.safety_passed),
    ("judge_disagreement", .bool d.judge_disagreement),
    ("was_refined", .bool d.was_refined),
    ("was_retried", .bool d.was_retried),
    ("agent_scores", .obj (d.get_agent_scores.map (fun p => (p.1, .num p.2))))]

/-- Embedding of `BlockedDecision.to_dict` (src/core/decision.py lines 195-204). -/
def BlockedDecision.to_dict (b : BlockedDecision) : JVal :=
  .obj [("decision_id", .str b.decision_id), ("timestamp", .str b.timestamp),
    ("query", .str b.query), ("safety_passed", .bool b.safety_passed),
    ("block_reason", .str b.block_reason),
    ("matched_patterns", .arr (b.matched_patterns.map .str))]

/-- The `Union[Decision, BlockedDecision]` argument of `AuditLogger.log`. -/
inductive AnyDecision where
  | dec (d : Decision)
  | blocked (b : BlockedDecision)

/-- Embedding of `AuditLogger.log` (src/audit/logger.py lines 34-78): the JSON
record appended to the audit file.  `hash_query` abstracts
`AuditLogger._hash_query` (the first 16 hex characters of the SHA-256 of the
query); `log_timestamp` abstracts `datetime.now().isoformat()`. -/
def audit_entry (hash_query : String → String) (log_timestamp : String)
    (decision : AnyDecision) : JVal :=
  let common := fun (did q : String) (sp : Bool) =>
    [("log_timestamp", JVal.str log_timestamp), ("decision_id", JVal.str did),
      ("query_hash", JVal.str (hash_query q)), ("safety_passed", JVal.bool sp)]
  match decision with
  | .dec d =>
    .obj (common d.decision_id d.query d.safety_passed ++
      [("type", .str "decision"),
        ("selected_agent", .str d.selected_response.agent_type),
        ("confidence", .num d.confidence_score),
        ("risk_level", .str d.risk_level.value),
        ("risks", .arr (d.identified_risks.map .str)),
        ("processing_time_ms", .num d.processing_time_ms),
        ("was_refined", .bool d.was_refined),
        ("was_retried", .bool d.was_retried),
        ("judge_disagreement", .bool d.judge_disagreement),
        ("full_decision", d.to_dict)])
  | .blocked b =>
    .obj (common b.decision_id b.query b.safety_passed ++
      [("type", .str "blocked"), ("block_reason", .str b.block_reason),
        ("matched_patterns", .arr (b.matched_patterns.map .str))])

mutual

/-- Whether the string `t` occurs among the string leaves of a JSON value
(as a full value; a record "contains the literal query string" if this holds
of the query). -/
def JVal.containsStr : JVal → String → Bool
  | .str s, t => s == t
  | .num _, _ => false
  | .bool _, _ => false
  | .null, _ => false
  | .arr l, t => JVal.anyContainsStr l t
  | .obj l, t => JVal.anyFieldContainsStr l t

def JVal.anyContainsStr : List JVal → String → Bool
  | [], _ => false
  | v :: vs, t => v.containsStr t || JVal.anyContainsStr vs t

def JVal.anyFieldContainsStr : List (String × JVal) → String → Bool
  | [], _ => false
  | kv :: kvs, t => kv.2.containsStr t || JVal.anyFieldContainsStr kvs t

end

/-! Section: Sample data used by concrete theorems -/

/-- A concrete generated response (first in panel order). -/
def respAnalytical : AgentResponse :=
  ⟨"agent_1", "Analytical", "The answer is 42.", 7/10, 120⟩

/-- A concrete generated response whose *type* (not id) carries the
safety-advocate marker. -/
def respAdvocate : AgentResponse :=
  ⟨"agent_2", "Safety Advocate", "Proceed with care.", 9/10, 150⟩

/-! Section: C1 — selection on an empty evaluation list -/

/-- C1, counterexample: with one generated response and no evaluations,
`_select_best` does not return the first response with confidence 0 — it
fails (`max()` of the empty `avg_scores.values()` raises `ValueError`,
embedded as `none`). -/
theorem select_best_empty_evals_cex :
    select_best [respAnalytical] [] = none ∧
    select_best [respAnalytical] [] ≠ some (respAnalytical, 0) ∧
    [respAnalytical] ≠ ([] : List AgentResponse) := by
  have h0 : select_best [respAnalytical] [] = none := rfl
  refine ⟨h0, ?_, ?_⟩ <;> simp [h0]

/-- C1, amended: for every (even non-empty) response list, `_select_best`
with an empty evaluation list fails — `max(avg_scores.values())` raises
`ValueError` on the empty score dict; there is no fallback on that path. -/
theorem select_best_empty_evals_fails (responses : List AgentResponse) :
    select_best responses [] = none := rfl

/-! Section: C4 — the retry branch -/

/-- C4: the retry branch fires iff `confidence < confidence_threshold`,
`max_retries > 0` and the feedback aggregated from the judge evaluations
targeting the selected response is non-empty; when it fires the resulting
confidence is exactly `min(1.0, confidence + 0.1)`; when the aggregated
feedback is empty no retry occurs even if the confidence condition held. -/
theorem retry_branch_iff (confidence confidence_threshold : ℚ) (max_retries : ℤ)
    (evals : List JudgeEvaluation) (selected : AgentResponse) :
    ((retry_step confidence confidence_threshold max_retries evals selected).1 = true ↔
      (confidence < confidence_threshold ∧ 0 < max_retries ∧
        get_judge_feedback evals selected ≠ "")) ∧
    ((retry_step confidence confidence_threshold max_retries evals selected).1 = true →
      (retry_step confidence confidence_threshold max_retries evals selected).2.1 =
        min 1 (confidence + 1/10)) ∧
    (get_judge_feedback evals selected = "" →
      (retry_step confidence confidence_threshold max_retries evals selected).1 = false) := by
  unfold retry_step
  by_cases h1 : confidence < confidence_threshold ∧ max_retries > 0
  · simp only [if_pos h1]
    by_cases h2 : get_judge_feedback evals selected = ""
    · simp [h2, h1.1, h1.2]
    · simp [h2, h1.1, h1.2]
  · simp only [if_neg h1]
    refine ⟨?_, by simp, by intro _; simp⟩
    simp only [not_and_or] at h1
    constructor
    · intro h; simp at h
    · rintro ⟨ha, hb, _⟩
      rcases h1 with h | h
      · exact absurd ha h
      · exact absurd hb (by omega)

/-- C4, witness: a concrete run where the branch fires (confidence 1/2 below
threshold 3/5, one retry allowed, a Safety judge flagged an issue), checked by
instantiating `retry_branch_iff`. -/
theorem retry_branch_iff_witness :
    ((retry_step (1/2) (3/5) 1
        [⟨"judge_safety", "Safety", "agent_1", [], 5, "needs work", ["vague claim"]⟩]
        respAnalytical).1 = true ↔
      ((1:ℚ)/2 < 3/5 ∧ (0:ℤ) < 1 ∧
        get_judge_feedback
          [⟨"judge_safety", "Safety", "agent_1", [], 5, "needs work", ["vague claim"]⟩]
          respAnalytical ≠ "")) ∧
    ((retry_step (1/2) (3/5) 1
        [⟨"judge_safety", "Safety", "agent_1", [], 5, "needs work", ["vague claim"]⟩]
        respAnalytical).1 = true →
      (retry_step (1/2) (3/5) 1
        [⟨"judge_safety", "Safety", "agent_1", [], 5, "needs work", ["vague claim"]⟩]
        respAnalytical).2.1 = min 1 ((1:ℚ)/2 + 1/10)) ∧
    (get_judge_feedback
        [⟨"judge_safety", "Safety", "agent_1", [], 5, "needs work", ["vague claim"]⟩]
        respAnalytical = "" →
      (retry_step (1/2) (3/5) 1
        [⟨"judge_safety", "Safety", "agent_1", [], 5, "needs work", ["vague claim"]⟩]
        respAnalytical).1 = false) :=
  retry_branch_iff (1/2) (3/5) 1
    [⟨"judge_safety", "Safety", "agent_1", [], 5, "needs work", ["vague claim"]⟩]
    respAnalytical

/-! Section: C9 — staged execution stage order -/

/-- C9: for every configuration, query and scheduler behaviour (number of
polling iterations), the staged mode emits exactly `start, blocked` (gate
rejection) or `start, agents × n (n ≥ 1), judges, final`; no other stage
sequence is possible. -/
theorem decide_generator_stage_order (cfg : SafetyConfig) (query : String)
    (polls : ℕ) :
    decide_generator_stages cfg query polls = ["start", "blocked"] ∨
    ∃ n, 1 ≤ n ∧ decide_generator_stages cfg query polls =
      "start" :: (List.replicate n "agents" ++ ["judges", "final"]) := by
  unfold decide_generator_stages
  by_cases h : (safety_check cfg query).passed
  · refine Or.inr ⟨polls + 1, by omega, ?_⟩
    simp [h, List.replicate_succ', List.append_assoc]
  · simp [h]

/-! Section: C10 — citation dedup and truncation -/

theorem dedupCitations_sublist :
    ∀ (cs seen : List String), (dedupCitations cs seen).Sublist cs := by
  intro cs
  induction cs with
  | nil => intro seen; simp [dedupCitations]
  | cons c cs ih =>
    intro seen
    unfold dedupCitations
    split
    · exact (ih seen).trans (List.sublist_cons_self c cs)
    · exact (ih (pyLower c :: seen)).cons₂ c

theorem dedupCitations_not_seen :
    ∀ (cs seen : List String) (x : String), x ∈ dedupCitations cs seen →
      pyLower x ∉ seen := by
  intro cs
  induction cs with
  | nil => intro seen x hx; simp [dedupCitations] at hx
  | cons c cs ih =>
    intro seen x hx
    unfold dedupCitations at hx
    split at hx
    · exact ih seen x hx
    · rcases List.mem_cons.mp hx with rfl | hx
      · assumption
      · intro hmem
        exact ih (pyLower c :: seen) x hx (List.mem_cons_of_mem _ hmem)

theorem dedupCitations_pairwise :
    ∀ (cs seen : List String),
      (dedupCitations cs seen).Pairwise (fun a b => pyLower a ≠ pyLower b) := by
  intro cs
  induction cs with
  | nil => intro seen; simp [dedupCitations]
  | cons c cs ih =>
    intro seen
    unfold dedupCitations
    split
    · exact ih seen
    · refine List.Pairwise.cons ?_ (ih (pyLower c :: seen))
      intro x hx heq
      exact dedupCitations_not_seen cs (pyLower c :: seen) x hx
        (heq ▸ List.mem_cons_self _ _)

theorem dedupCitations_first_occurrence :
    ∀ (cs seen : List String) (x : String), x ∈ dedupCitations cs seen →
      cs.find? (fun c => pyLower c == pyLower x) = some x := by
  intro cs
  induction cs with
  | nil => intro seen x hx; simp [dedupCitations] at hx
  | cons c cs ih =>
    intro seen x hx
    unfold dedupCitations at hx
    split at hx
    · rename_i hseen
      have hne : pyLower c ≠ pyLower x := by
        intro heq
        exact dedupCitations_not_seen cs seen x hx (heq ▸ hseen)
      rw [List.find?_cons_of_neg _ (by simpa using hne)]
      exact ih seen x hx
    · rcases List.mem_cons.mp hx with rfl | hx
      · exact List.find?_cons_of_pos _ (by simp)
      · have hne : pyLower c ≠ pyLower x := by
          intro heq
          exact dedupCitations_not_seen cs (pyLower c :: seen) x hx
            (heq ▸ List.mem_cons_self _ _)
        rw [List.find?_cons_of_neg _ (by simpa using hne)]
        exact ih (pyLower c :: seen) x hx

/-- C10: for every candidate list the regex phase can produce,
`_extract_citations` returns at most 10 entries, no two of which are equal
case-insensitively; order is extraction order (a sublist of the candidates)
and each kept entry is the first candidate of its case-insensitive class. -/
theorem extract_citations_invariant (candidates : List String) :
    (extract_citations candidates).length ≤ 10 ∧
    (extract_citations candidates).Pairwise (fun a b => pyLower a ≠ pyLower b) ∧
    (extract_citations candidates).Sublist candidates ∧
    (∀ x ∈ extract_citations candidates,
      candidates.find? (fun c => pyLower c == pyLower x) = some x) := by
  refine ⟨?_, ?_, ?_, ?_⟩
  · exact List.length_take_le 10 (dedupCitations candidates [])
  · exact (dedupCitations_pairwise candidates []).sublist (List.take_sublist _ _)
  · exact (List.take_sublist _ _).trans (dedupCitations_sublist candidates [])
  · intro x hx
    exact dedupCitations_first_occurrence candidates [] x
      (List.mem_of_mem_take hx)

/-! Section: C3 — blocklist before allowlist in the safety gate -/

/-- C3, counterexample: the keyword check runs on the *stripped* query, so a
blocked keyword with trailing whitespace ("bomb ") that occurs in the raw
query only via its trailing whitespace is missed, and an allowlist match then
accepts the query: the claim's premises hold (keyword is a case-insensitive
substring of the query, an allowlist pattern matches) yet `passed = true`. -/
theorem safety_gate_allowlist_strip_cex :
    "bomb " ∈ (["bomb "] : List String) ∧
    strIn (pyLower "bomb ") (pyLower "tell me about bomb ") = true ∧
    (SafetyConfig.mk ["bomb "] [] [⟨".*", fun _ => true⟩] 1000 3).allowlist_patterns.any
      (fun p => p.search (pyStrip "tell me about bomb ")) = true ∧
    (safety_check (SafetyConfig.mk ["bomb "] [] [⟨".*", fun _ => true⟩] 1000 3)
      "tell me about bomb ").passed = true := by
  refine ⟨by simp, by with_unfolding_all decide, rfl, rfl⟩

/-- C3, amended: for every configuration and query, if a configured blocked
keyword occurs (case-insensitively) as a substring of the *whitespace-stripped*
query, `SafetyGate.check` returns `passed = false`, regardless of the
allowlist — the blocklist is checked first, so an allowlist match can never
override a block. -/
theorem safety_gate_blocklist_precedence (cfg : SafetyConfig) (query k : String)
    (hk : k ∈ cfg.blocked_keywords)
    (hsub : strIn (pyLower k) (pyLower (pyStrip query)) = true) :
    (safety_check cfg query).passed = false := by
  unfold safety_check
  dsimp only
  cases hfind : List.find? (fun kk => strIn (pyLower kk) (pyLower (pyStrip query)))
      cfg.blocked_keywords with
  | none =>
    exfalso
    have hnone := List.find?_eq_none.mp hfind k hk
    simp [hsub] at hnone
  | some kk => split_ifs <;> rfl

/-- C3, witness: a query containing the blocked keyword "bomb" (as a substring
of the stripped query) and matching a match-everything allowlist pattern is
still blocked, by instantiating `safety_gate_blocklist_precedence`. -/
theorem safety_gate_blocklist_precedence_witness :
    (safety_check (SafetyConfig.mk ["bomb"] [] [⟨".*", fun _ => true⟩] 1000 3)
      "how to build a bomb").passed = false :=
  safety_gate_blocklist_precedence
    (SafetyConfig.mk ["bomb"] [] [⟨".*", fun _ => true⟩] 1000 3)
    "how to build a bomb" "bomb" (by simp) (by with_unfolding_all decide)

/-! Section: C7 — judge disagreement -/

/-- C7, counterexample: two *distinct judges* that share the judge type
"Safety" score the same agent 0 and 10 (difference 10 > threshold 3), yet the
flag is false: the per-agent score dict is keyed by judge *type*, so the
second evaluation overwrites the first and only one score remains. -/
theorem judge_disagreement_same_type_cex :
    check_judge_disagreement
      [⟨"judge_a", "Safety", "agent_1", [], 0, "", []⟩,
        ⟨"judge_b", "Safety", "agent_1", [], 10, "", []⟩] 3 = false ∧
    (JudgeEvaluation.mk "judge_a" "Safety" "agent_1" [] 0 "" []).judge_id ≠
      (JudgeEvaluation.mk "judge_b" "Safety" "agent_1" [] 10 "" []).judge_id ∧
    (JudgeEvaluation.mk "judge_b" "Safety" "agent_1" [] 10 "" []).total_score -
      (JudgeEvaluation.mk "judge_a" "Safety" "agent_1" [] 0 "" []).total_score > 3 := by
  refine ⟨by with_unfolding_all decide, by simp, by with_unfolding_all decide⟩

theorem judgeTotalsFor_length_pos_mem {evals : List JudgeEvaluation} {aid : String}
    (h : 2 ≤ (judgeTotalsFor evals aid).length) : aid ∈ agentKeys evals := by
  have hlen : 2 ≤ (judgeTypesFor evals aid).length := by
    simpa [judgeTotalsFor] using h
  have htypes : judgeTypesFor evals aid ≠ [] := by
    intro hnil; rw [hnil] at hlen; simp at hlen
  obtain ⟨t, ht⟩ := List.exists_mem_of_ne_nil _ htypes
  have ht' : t ∈ (evalsFor evals aid).map (·.judge_type) :=
    (mem_firstKeys t _).mp ht
  obtain ⟨e, he, _⟩ := List.mem_map.mp ht'
  have he' := List.mem_filter.mp he
  rw [agentKeys, mem_firstKeys]
  exact List.mem_map.mpr ⟨e, he'.1, by simpa using he'.2⟩

/-- C7, amended: the disagreement flag is true iff some agent's per-judge-type
score dict (judge scores are keyed by judge *type*; a later evaluation from a
judge of the same type overwrites the earlier one) has at least two entries
whose max − min strictly exceeds the threshold; a difference exactly equal to
the threshold yields false (the comparison is strict). -/
theorem judge_disagreement_iff (evals : List JudgeEvaluation) (threshold : ℚ) :
    check_judge_disagreement evals threshold = true ↔
      ∃ aid, 2 ≤ (judgeTotalsFor evals aid).length ∧
        listMax (judgeTotalsFor evals aid) - listMin (judgeTotalsFor evals aid) >
          threshold := by
  unfold check_judge_disagreement
  rw [List.any_eq_true]
  constructor
  · rintro ⟨aid, _, hp⟩
    rw [Bool.and_eq_true, decide_eq_true_eq, decide_eq_true_eq] at hp
    exact ⟨aid, hp.1, hp.2⟩
  · rintro ⟨aid, h2, hgt⟩
    refine ⟨aid, judgeTotalsFor_length_pos_mem h2, ?_⟩
    rw [Bool.and_eq_true, decide_eq_true_eq, decide_eq_true_eq]
    exact ⟨h2, hgt⟩

/-! Section: C8 — risk classification -/

/-- C8: the risk-assessment operation returns the collected risk list and
classifies CRITICAL iff some collected risk string contains a harm/danger
marker ("harmful" or "dangerous", case-insensitively); otherwise HIGH iff the
risk count is ≥ 4 or confidence < 0.4; otherwise MEDIUM iff the risk count is
≥ 2 or confidence < 0.6 or the disagreement flag is set; otherwise LOW. -/
theorem assess_risk_classification (evals : List JudgeEvaluation)
    (confidence : ℚ) (judge_disagreement : Bool) :
    (assess_risk evals confidence judge_disagreement).2 = collectRisks evals ∧
    ((assess_risk evals confidence judge_disagreement).1 = RiskLevel.CRITICAL ↔
      ∃ r ∈ collectRisks evals, riskMarker r = true) ∧
    ((assess_risk evals confidence judge_disagreement).1 = RiskLevel.HIGH ↔
      (¬ ∃ r ∈ collectRisks evals, riskMarker r = true) ∧
        (4 ≤ (collectRisks evals).length ∨ confidence < 2/5)) ∧
    ((assess_risk evals confidence judge_disagreement).1 = RiskLevel.MEDIUM ↔
      (¬ ∃ r ∈ collectRisks evals, riskMarker r = true) ∧
        ¬ (4 ≤ (collectRisks evals).length ∨ confidence < 2/5) ∧
        (2 ≤ (collectRisks evals).length ∨ confidence < 3/5 ∨
          judge_disagreement = true)) ∧
    ((assess_risk evals confidence judge_disagreement).1 = RiskLevel.LOW ↔
      (¬ ∃ r ∈ collectRisks evals, riskMarker r = true) ∧
        ¬ (4 ≤ (collectRisks evals).length ∨ confidence < 2/5) ∧
        ¬ (2 ≤ (collectRisks evals).length ∨ confidence < 3/5 ∨
          judge_disagreement = true)) := by
  unfold assess_risk
  have hany : ((collectRisks evals).any riskMarker = true) ↔
      ∃ r ∈ collectRisks evals, riskMarker r = true := List.any_eq_true
  dsimp only
  split_ifs with hc hh hm
  · rw [← hany]; simp [hc]
  · rw [← hany] at *; simp [hc, hh]
  · rw [← hany] at *; simp [hc, hh, hm]
  · rw [← hany] at *; simp [hc, hh, hm]

/-! Section: Selector lemmas shared by C5 and C6 -/

theorem mem_agentKeys (aid : String) (evals : List JudgeEvaluation) :
    aid ∈ agentKeys evals ↔ aid ∈ evals.map (·.target_agent_id) := by
  rw [agentKeys, mem_firstKeys]

theorem le_foldl_max (l : List ℚ) : ∀ x : ℚ, x ≤ l.foldl max x := by
  induction l with
  | nil => intro x; simp
  | cons y ys ih =>
    intro x
    exact le_trans (le_max_left x y) (ih (max x y))

theorem mem_le_foldl_max (l : List ℚ) :
    ∀ (x y : ℚ), y ∈ l → y ≤ l.foldl max x := by
  induction l with
  | nil => intro x y hy; simp at hy
  | cons z zs ih =>
    intro x y hy
    rcases List.mem_cons.mp hy with rfl | hy
    · exact le_trans (le_max_right x y) (le_foldl_max zs (max x y))
    · exact ih (max x z) y hy

theorem foldl_max_le (l : List ℚ) :
    ∀ (x b : ℚ), x ≤ b → (∀ y ∈ l, y ≤ b) → l.foldl max x ≤ b := by
  induction l with
  | nil => intro x b hx _; simpa using hx
  | cons z zs ih =>
    intro x b hx hl
    refine ih (max x z) b (max_le hx (hl z (List.mem_cons_self z zs))) ?_
    intro y hy
    exact hl y (List.mem_cons_of_mem z hy)

/-- The value `bestAvg` is an upper bound of every agent's average. -/
theorem avgScore_le_bestAvg (evals : List JudgeEvaluation) (aid : String)
    (h : aid ∈ agentKeys evals) : avgScore evals aid ≤ bestAvg evals := by
  unfold bestAvg
  cases hkeys : agentKeys evals with
  | nil => rw [hkeys] at h; simp at h
  | cons k0 ks =>
    rw [hkeys] at h
    rcases List.mem_cons.mp h with rfl | h
    · exact le_foldl_max _ _
    · exact mem_le_foldl_max _ _ _ (List.mem_map_of_mem _ h)

/-- The value `bestAvg` is attained by some key of the score dict. -/
theorem bestAvg_attained (evals : List JudgeEvaluation) (k0 : String)
    (ks : List String) (hkeys : agentKeys evals = k0 :: ks) :
    ∃ a ∈ agentKeys evals, avgScore evals a = bestAvg evals := by
  have hb : bestAvg evals = (ks.map (avgScore evals)).foldl max (avgScore evals k0) := by
    unfold bestAvg
    rw [hkeys]
  have : ∀ (l : List String) (x : String),
      (l.map (avgScore evals)).foldl max (avgScore evals x) = avgScore evals x ∨
      ∃ a ∈ l, (l.map (avgScore evals)).foldl max (avgScore evals x) =
        avgScore evals a := by
    intro l
    induction l with
    | nil => intro x; simp
    | cons z zs ih =>
      intro x
      rcases max_choice (avgScore evals x) (avgScore evals z) with hm | hm
      · rcases ih x with h | ⟨a, ha, h⟩
        · left
          simpa [hm] using h
        · right
          exact ⟨a, List.mem_cons_of_mem z ha, by simpa [hm] using h⟩
      · rcases ih z with h | ⟨a, ha, h⟩
        · right
          exact ⟨z, List.mem_cons_self z zs, by simpa [hm] using h⟩
        · right
          exact ⟨a, List.mem_cons_of_mem z ha, by simpa [hm] using h⟩
  rcases this ks k0 with h | ⟨a, ha, h⟩
  · exact ⟨k0, hkeys ▸ List.mem_cons_self k0 ks, by rw [hb, h]⟩
  · exact ⟨a, hkeys ▸ List.mem_cons_of_mem k0 ha, by rw [hb, h]⟩

/-- Members of `tiedAgents` are exactly the keys attaining the best average. -/
theorem mem_tiedAgents (evals : List JudgeEvaluation) (a : String) :
    a ∈ tiedAgents evals ↔
      a ∈ agentKeys evals ∧ avgScore evals a = bestAvg evals := by
  unfold tiedAgents
  rw [List.mem_filter]
  simp [beq_iff_eq]

/-- The list `tiedAgents` is nonempty whenever the score dict is. -/
theorem tiedAgents_ne_nil (evals : List JudgeEvaluation) (k0 : String)
    (ks : List String) (hkeys : agentKeys evals = k0 :: ks) :
    tiedAgents evals ≠ [] := by
  obtain ⟨a, ha, hav⟩ := bestAvg_attained evals k0 ks hkeys
  intro hnil
  have : a ∈ tiedAgents evals := (mem_tiedAgents evals a).mpr ⟨ha, hav⟩
  rw [hnil] at this
  simp at this

/-- The agent id chosen by the tie-break of `_select_best`: the first tied
agent carrying the safety marker, else the first tied agent. -/
def tieBreakChoice (evals : List JudgeEvaluation) (dflt : String) : String :=
  match (tiedAgents evals).find? hasSafetyMarker with
  | some a => a
  | none => (tiedAgents evals).headD dflt

theorem select_best_eq (responses : List AgentResponse)
    (evals : List JudgeEvaluation) (k0 : String) (ks : List String)
    (hkeys : agentKeys evals = k0 :: ks) :
    select_best responses evals =
      match responses.find? (fun r => r.agent_id == tieBreakChoice evals k0) with
      | some r => some (r, bestAvg evals / 10)
      | none =>
        match responses with
        | [] => none
        | r :: _ => some (r, bestAvg evals / 10) := by
  unfold select_best
  rw [hkeys]
  rfl

theorem tieBreakChoice_mem (evals : List JudgeEvaluation) (dflt : String)
    (hne : tiedAgents evals ≠ []) : tieBreakChoice evals dflt ∈ tiedAgents evals := by
  unfold tieBreakChoice
  cases hf : (tiedAgents evals).find? hasSafetyMarker with
  | some a => exact List.mem_of_find?_eq_some hf
  | none =>
    cases htied : tiedAgents evals with
    | nil => exact absurd htied hne
    | cons t ts => simp

/-- Transport of per-agent averages along a permutation of the evaluation
list (the underlying filtered score lists are permuted, and sum and length
are permutation-invariant). -/
theorem avgScore_perm {evals₁ evals₂ : List JudgeEvaluation}
    (h : evals₁.Perm evals₂) (aid : String) :
    avgScore evals₁ aid = avgScore evals₂ aid := by
  have hs : (scoresFor evals₁ aid).Perm (scoresFor evals₂ aid) :=
    (h.filter _).map _
  rw [avgScore, avgScore, hs.sum_eq, hs.length_eq]

theorem mem_map_target_perm {evals₁ evals₂ : List JudgeEvaluation}
    (h : evals₁.Perm evals₂) (aid : String) :
    aid ∈ evals₁.map (·.target_agent_id) ↔ aid ∈ evals₂.map (·.target_agent_id) :=
  (h.map _).mem_iff

/-! Section: C5 — strict maximum wins, independently of evaluation order -/

/-- Auxiliary form of C5 for one fixed evaluation list. -/
theorem select_best_strict_max_aux (responses : List AgentResponse)
    (evals : List JudgeEvaluation) (A : String)
    (hmem : A ∈ evals.map (·.target_agent_id))
    (hstrict : ∀ b ∈ evals.map (·.target_agent_id), b ≠ A →
      avgScore evals b < avgScore evals A)
    (hresp : ∃ r ∈ responses, r.agent_id = A) :
    ∃ r, select_best responses evals = some (r, avgScore evals A / 10) ∧
      r ∈ responses ∧ r.agent_id = A := by
  have hA : A ∈ agentKeys evals := (mem_agentKeys A evals).mpr hmem
  cases hkeys : agentKeys evals with
  | nil => rw [hkeys] at hA; simp at hA
  | cons k0 ks =>
    have hbest : bestAvg evals = avgScore evals A := by
      apply le_antisymm
      · obtain ⟨a, ha, hav⟩ := bestAvg_attained evals k0 ks hkeys
        rw [← hav]
        by_cases haA : a = A
        · rw [haA]
        · exact le_of_lt (hstrict a ((mem_agentKeys a evals).mp ha) haA)
      · exact avgScore_le_bestAvg evals A hA
    have htie : tieBreakChoice evals k0 = A := by
      have hmemt := tieBreakChoice_mem evals k0 (tiedAgents_ne_nil evals k0 ks hkeys)
      obtain ⟨hkey, hav⟩ := (mem_tiedAgents evals _).mp hmemt
      by_contra hne
      have hlt := hstrict _ ((mem_agentKeys _ evals).mp hkey) hne
      rw [hav, hbest] at hlt
      exact lt_irrefl _ hlt
    rw [select_best_eq responses evals k0 ks hkeys, htie]
    obtain ⟨r0, hr0, hr0A⟩ := hresp
    have hsome : (responses.find? (fun r => r.agent_id == A)).isSome := by
      rw [List.find?_isSome]
      exact ⟨r0, hr0, by simp [hr0A]⟩
    obtain ⟨r', hr'⟩ := Option.isSome_iff_exists.mp hsome
    rw [hr']
    refine ⟨r', by rw [hbest], List.mem_of_find?_eq_some hr', ?_⟩
    have := List.find?_some hr'
    simpa using this

/-- C5: if agent `A`'s average total score strictly exceeds every other
agent's, then for *any permutation* of the evaluation list the selector
returns `A`'s response, with confidence exactly `A`'s average divided by 10. -/
theorem select_best_strict_max (responses : List AgentResponse)
    (evals : List JudgeEvaluation) (A : String)
    (hmem : A ∈ evals.map (·.target_agent_id))
    (hstrict : ∀ b ∈ evals.map (·.target_agent_id), b ≠ A →
      avgScore evals b < avgScore evals A)
    (hresp : ∃ r ∈ responses, r.agent_id = A) :
    ∀ evals₂, evals₂.Perm evals →
      ∃ r, select_best responses evals₂ = some (r, avgScore evals A / 10) ∧
        r ∈ responses ∧ r.agent_id = A := by
  intro evals₂ hperm
  have hmem₂ : A ∈ evals₂.map (·.target_agent_id) :=
    (mem_map_target_perm hperm A).mpr hmem
  have hstrict₂ : ∀ b ∈ evals₂.map (·.target_agent_id), b ≠ A →
      avgScore evals₂ b < avgScore evals₂ A := by
    intro b hb hbA
    rw [avgScore_perm hperm b, avgScore_perm hperm A]
    exact hstrict b ((mem_map_target_perm hperm b).mp hb) hbA
  obtain ⟨r, hr, hrmem, hrA⟩ :=
    select_best_strict_max_aux responses evals₂ A hmem₂ hstrict₂ hresp
  exact ⟨r, by rw [hr, avgScore_perm hperm A], hrmem, hrA⟩

/-- C5, witness: three agents with averages 9, 7, 8 under any of the two
presented evaluation orders select `agent_1` with confidence 9/10, by
instantiating `select_best_strict_max` (with the permuted list). -/
theorem select_best_strict_max_witness :
    ∃ r, select_best
        [respAnalytical, respAdvocate]
        [⟨"judge_safety", "Safety", "agent_2", [], 7, "", []⟩,
          ⟨"judge_factuality", "Factuality", "agent_1", [], 9, "", []⟩] =
      some (r, avgScore
        [⟨"judge_factuality", "Factuality", "agent_1", [], 9, "", []⟩,
          ⟨"judge_safety", "Safety", "agent_2", [], 7, "", []⟩] "agent_1" / 10) ∧
      r ∈ [respAnalytical, respAdvocate] ∧ r.agent_id = "agent_1" :=
  select_best_strict_max [respAnalytical, respAdvocate]
    [⟨"judge_factuality", "Factuality", "agent_1", [], 9, "", []⟩,
      ⟨"judge_safety", "Safety", "agent_2", [], 7, "", []⟩] "agent_1"
    (by simp)
    (by
      intro b hb hbA
      simp only [List.map_cons, List.map_nil, List.mem_cons, List.mem_singleton] at hb
      rcases hb with rfl | rfl | h
      · exact absurd rfl hbA
      · with_unfolding_all decide
      · simp at h)
    ⟨respAnalytical, by simp, rfl⟩
    _ (List.Perm.swap _ _ _)

/-! Section: C6 — tie-break among equal best averages -/

/-- C6, counterexample: agents `agent_1` ("Analytical") and `agent_2` (type
"Safety Advocate") are tied at average 8.  The claim says a tied agent whose
identifier *or type* carries the safety-advocate marker is preferred, but the
code checks only the identifier: neither id carries the marker, so the first
tied agent `agent_1` is selected, not the "Safety Advocate"-typed `agent_2`. -/
theorem select_best_tie_ignores_type_cex :
    avgScore
        [⟨"judge_factuality", "Factuality", "agent_1", [], 8, "", []⟩,
          ⟨"judge_factuality", "Factuality", "agent_2", [], 8, "", []⟩] "agent_1" =
      avgScore
        [⟨"judge_factuality", "Factuality", "agent_1", [], 8, "", []⟩,
          ⟨"judge_factuality", "Factuality", "agent_2", [], 8, "", []⟩] "agent_2" ∧
    strIn "advocate" (pyLower respAdvocate.agent_type) = true ∧
    hasSafetyMarker respAnalytical.agent_id = false ∧
    hasSafetyMarker respAdvocate.agent_id = false ∧
    select_best [respAnalytical, respAdvocate]
        [⟨"judge_factuality", "Factuality", "agent_1", [], 8, "", []⟩,
          ⟨"judge_factuality", "Factuality", "agent_2", [], 8, "", []⟩] =
      some (respAnalytical, 4/5) := by
  refine ⟨?_, ?_, ?_, ?_, ?_⟩ <;> with_unfolding_all decide

theorem agentKeys_ne_nil {evals : List JudgeEvaluation} (hne : evals ≠ []) :
    agentKeys evals ≠ [] := by
  cases evals with
  | nil => exact absurd rfl hne
  | cons e es =>
    intro hnil
    have : e.target_agent_id ∈ agentKeys (e :: es) :=
      (mem_agentKeys _ _).mpr (by simp)
    rw [hnil] at this
    simp at this

/-- C6, amended: whenever two or more agents tie on the best average, the
selector picks a tied agent whose *identifier* (lowercased) contains "safety"
or "advocate" — the agent type is never consulted — and when no tied agent's
identifier carries the marker it picks the first tied agent in the score
dict's first-occurrence order (panel-declaration order when evaluations are
produced panel-by-panel); the choice is a pure function of the inputs, hence
deterministic across repeated runs with identical input order.  (Stated for
every evaluation list, ties or not; with a unique best agent the tie set is a
singleton and both conjuncts collapse to selecting it.) -/
theorem select_best_tie_break (responses : List AgentResponse)
    (evals : List JudgeEvaluation) (hne : evals ≠ [])
    (hresp : ∀ aid ∈ evals.map (·.target_agent_id),
      ∃ r ∈ responses, r.agent_id = aid) :
    ∃ r, select_best responses evals = some (r, bestAvg evals / 10) ∧
      r ∈ responses ∧ r.agent_id ∈ tiedAgents evals ∧
      ((∃ a ∈ tiedAgents evals, hasSafetyMarker a = true) →
        hasSafetyMarker r.agent_id = true) ∧
      ((∀ a ∈ tiedAgents evals, hasSafetyMarker a = false) →
        (tiedAgents evals).head? = some r.agent_id) := by
  obtain ⟨k0, ks, hkeys⟩ := List.exists_cons_of_ne_nil (agentKeys_ne_nil hne)
  have htdne := tiedAgents_ne_nil evals k0 ks hkeys
  have hchoice := tieBreakChoice_mem evals k0 htdne
  have hchoice_key : tieBreakChoice evals k0 ∈ evals.map (·.target_agent_id) :=
    (mem_agentKeys _ evals).mp ((mem_tiedAgents evals _).mp hchoice).1
  obtain ⟨r0, hr0, hr0id⟩ := hresp _ hchoice_key
  have hsome : (responses.find? (fun r => r.agent_id == tieBreakChoice evals k0)).isSome := by
    rw [List.find?_isSome]
    exact ⟨r0, hr0, by simp [hr0id]⟩
  obtain ⟨r', hr'⟩ := Option.isSome_iff_exists.mp hsome
  have hr'id : r'.agent_id = tieBreakChoice evals k0 := by
    have := List.find?_some hr'
    simpa using this
  refine ⟨r', ?_, List.mem_of_find?_eq_some hr', hr'id ▸ hchoice, ?_, ?_⟩
  · rw [select_best_eq responses evals k0 ks hkeys, hr']
  · rintro ⟨a, ha, hmarker⟩
    rw [hr'id]
    unfold tieBreakChoice
    cases hf : (tiedAgents evals).find? hasSafetyMarker with
    | some b => exact List.find?_some hf
    | none => exact absurd hmarker (by simpa using List.find?_eq_none.mp hf a ha)
  · intro hnomark
    have hf : (tiedAgents evals).find? hasSafetyMarker = none :=
      List.find?_eq_none.mpr (by intro a ha; simp [hnomark a ha])
    rw [hr'id]
    unfold tieBreakChoice
    rw [hf]
    cases htied : tiedAgents evals with
    | nil => exact absurd htied htdne
    | cons t ts => simp

/-- C6, witness: the tied agents `agent_1` and `agent_2` (no id carries the
marker) resolve to the first tied agent in first-occurrence order, by
instantiating `select_best_tie_break`. -/
theorem select_best_tie_break_witness :
    ∃ r, select_best [respAnalytical, respAdvocate]
        [⟨"judge_factuality", "Factuality", "agent_1", [], 8, "", []⟩,
          ⟨"judge_factuality", "Factuality", "agent_2", [], 8, "", []⟩] =
      some (r, bestAvg
        [⟨"judge_factuality", "Factuality", "agent_1", [], 8, "", []⟩,
          ⟨"judge_factuality", "Factuality", "agent_2", [], 8, "", []⟩] / 10) ∧
      r ∈ [respAnalytical, respAdvocate] ∧
      r.agent_id ∈ tiedAgents
        [⟨"judge_factuality", "Factuality", "agent_1", [], 8, "", []⟩,
          ⟨"judge_factuality", "Factuality", "agent_2", [], 8, "", []⟩] ∧
      ((∃ a ∈ tiedAgents
          [⟨"judge_factuality", "Factuality", "agent_1", [], 8, "", []⟩,
            ⟨"judge_factuality", "Factuality", "agent_2", [], 8, "", []⟩],
          hasSafetyMarker a = true) →
        hasSafetyMarker r.agent_id = true) ∧
      ((∀ a ∈ tiedAgents
          [⟨"judge_factuality", "Factuality", "agent_1", [], 8, "", []⟩,
            ⟨"judge_factuality", "Factuality", "agent_2", [], 8, "", []⟩],
          hasSafetyMarker a = false) →
        (tiedAgents
          [⟨"judge_factuality", "Factuality", "agent_1", [], 8, "", []⟩,
            ⟨"judge_factuality", "Factuality", "agent_2", [], 8, "", []⟩]).head? =
          some r.agent_id) :=
  select_best_tie_break [respAnalytical, respAdvocate]
    [⟨"judge_factuality", "Factuality", "agent_1", [], 8, "", []⟩,
      ⟨"judge_factuality", "Factuality", "agent_2", [], 8, "", []⟩]
    (by simp)
    (by
      intro aid haid
      simp only [List.map_cons, List.map_nil, List.mem_cons, List.mem_singleton] at haid
      rcases haid with rfl | rfl | h
      · exact ⟨respAnalytical, by simp, rfl⟩
      · exact ⟨respAdvocate, by simp, rfl⟩
      · simp at h)

/-! Section: C2 — the audit record and the raw query -/

/-- A concrete finished decision whose query is "what is love". -/
def sampleDecision : Decision :=
  ⟨"abc12345", "2026-10-12T00:00:00", "what is love", [respAnalytical],
    [⟨"judge_factuality", "Factuality", "agent_1", [("accuracy", 8)], 8, "ok", []⟩],
    respAnalytical, none, 4/5, RiskLevel.LOW, [], [], "selected agent_1", "",
    1234, true, false, true, false⟩

/-- C2: the audit record written by `AuditLogger.log` for a `Decision` *does*
contain the literal query string — the `full_decision` field embeds
`Decision.to_dict`, whose `"query"` entry is the raw query — contradicting the
code's own comments ("PRIVACY: Only store query_hash, never raw query";
"Raw query intentionally NOT logged to protect PII").  The hash argument here
stands for the 16-hex-character SHA-256 prefix; the violation is independent
of it. -/
theorem audit_log_contains_raw_query :
    sampleDecision.query = "what is love" ∧
    JVal.containsStr
      (audit_entry (fun _ => "0123456789abcdef") "2026-10-12T00:00:01"
        (.dec sampleDecision)) "what is love" = true := by
  refine ⟨rfl, ?_⟩
  with_unfolding_all decide

end Council
